import Mathlib

/-!
Verification of the RAG chatbot backend (`backend/ai_generator.py` and
`backend/app.py`) against its natural-language specification.

The embedding is shallow: the Anthropic client, the tool manager and the
RAG system are oracles (functions supplied as parameters); Python
exceptions are modelled with `Except String`; every LLM call and every
tool dispatch performed by the code is recorded in a trace of `Event`s so
that call counts, call parameters and dispatch order can be stated.
-/

namespace RagChatbot

/-! ## Data model: content blocks, responses, messages (Anthropic API shapes) -/

/-- Keyword arguments of a tool invocation (`content_block.input` in the source). -/
structure ToolInput where
  args : List (String × String)
deriving DecidableEq, Repr

/-- One content block of an LLM response (`content_block` in the source):
a text block carries `text`; a tool-use block carries `name`, `input`, `id`. -/
structure ContentBlock where
  type : String
  text : String
  name : String
  input : ToolInput
  id : String
deriving DecidableEq, Repr

/-- An LLM response (`current_response` in the source). -/
structure Response where
  stop_reason : String
  content : List ContentBlock
deriving DecidableEq, Repr

/-- One tool-result dictionary built by `_execute_tools`. -/
structure ToolResult where
  type : String
  tool_use_id : String
  content : String
deriving DecidableEq, Repr

/-- The `content` field of a message: the literal query string, the raw
content blocks of an assistant response, or a bundle of tool results. -/
inductive MsgContent where
  | text (s : String)
  | blocks (bs : List ContentBlock)
  | results (rs : List ToolResult)
deriving DecidableEq, Repr

/-- One entry of the message log (`{"role": ..., "content": ...}`). -/
structure Message where
  role : String
  content : MsgContent
deriving DecidableEq, Repr

/-- An opaque tool schema as passed in the `tools` list. -/
structure ToolSchema where
  name : String
  description : String
  input_schema : String
deriving DecidableEq, Repr

/-- The keyword arguments of one `client.messages.create` call:
`base_params` plus `messages`, `system`, and optionally `tools` and
`tool_choice`. `none` models the key being absent. -/
structure ApiParams where
  model : String
  temperature : Nat
  max_tokens : Nat
  messages : List Message
  system : String
  tools : Option (List ToolSchema)
  tool_choice : Option String
deriving DecidableEq, Repr

/-- The tool dispatcher (`tool_manager`): `execute_tool` may raise, modelled
by `Except.error`. -/
structure ToolManager where
  execute_tool : String → ToolInput → Except String String

/-- The module-level configuration (`config.py` is not under `src/`; only the
field the loop reads is modelled, abstractly). -/
structure Config where
  MAX_TOOL_ROUNDS : Nat

/-- The generator (`AIGenerator`): its `client.messages.create` is an oracle
taking the index of the call within one `generate_response` invocation and
the call parameters, and either returning a response or raising. -/
structure AIGenerator where
  model : String
  client : Nat → ApiParams → Except String Response

/-- Observable actions of one `generate_response` invocation. -/
inductive Event where
  | llmCall (params : ApiParams)
  | toolExec (name : String) (input : ToolInput) (id : String) (output : String)
deriving DecidableEq, Repr

/-! ## Embedding of `ai_generator.py` -/

/-- Python truthiness of the `tools` argument (`if tools:`). -/
def toolsTruthy : Option (List ToolSchema) → Bool
  | none => false
  | some ts => !ts.isEmpty

/-- Python truthiness of the `conversation_history` argument. -/
def historyTruthy : Option String → Bool
  | none => false
  | some h => h != ""

namespace AIGenerator

/-- The static system prompt of `AIGenerator` (source lines 11-33). -/
def SYSTEM_PROMPT : String :=
  " You are an AI assistant specialized in course materials and educational content with access to a comprehensive search tool for course information.\n"
  ++ "\n"
  ++ "Search Tool Usage:\n"
  ++ "- Use the search tool for questions about specific course content or detailed educational materials\n"
  ++ "- You can make multiple searches if needed to gather comprehensive information\n"
  ++ "- Synthesize search results into accurate, fact-based responses\n"
  ++ "- If search yields no results, state this clearly without offering alternatives\n"
  ++ "\n"
  ++ "Response Protocol:\n"
  ++ "- **General knowledge questions**: Answer using existing knowledge without searching\n"
  ++ "- **Course-specific questions**: Search first, then answer (multiple searches allowed if needed)\n"
  ++ "- **No meta-commentary**:\n"
  ++ " - Provide direct answers only — no reasoning process, search explanations, or question-type analysis\n"
  ++ " - Do not mention \"based on the search results\"\n"
  ++ "\n"
  ++ "\n"
  ++ "All responses must be:\n"
  ++ "1. **Brief, Concise and focused** - Get to the point quickly\n"
  ++ "2. **Educational** - Maintain instructional value\n"
  ++ "3. **Clear** - Use accessible language\n"
  ++ "4. **Example-supported** - Include relevant examples when they aid understanding\n"
  ++ "Provide only the direct answer to what was asked.\n"

/-- The system content built at the top of `generate_response` (lines 63-68). -/
def build_system_content (conversation_history : Option String) : String :=
  if historyTruthy conversation_history then
    SYSTEM_PROMPT ++ "\n\nPrevious conversation:\n" ++ conversation_history.getD ""
  else
    SYSTEM_PROMPT

/-- The shared `base_params` extended with `messages` and `system`
(the shape of the forced final call, which has no tools entries). -/
def apiParamsBase (g : AIGenerator) (messages : List Message) (system : String) :
    ApiParams :=
  { model := g.model, temperature := 0, max_tokens := 800,
    messages := messages, system := system, tools := none, tool_choice := none }

/-- The parameters of one in-loop call: tools and `tool_choice = auto` are
added only when `tools` is truthy (lines 77-86). -/
def apiParamsWithTools (g : AIGenerator) (messages : List Message)
    (system : String) (tools : Option (List ToolSchema)) : ApiParams :=
  if toolsTruthy tools then
    { apiParamsBase g messages system with tools := tools, tool_choice := some ("auto") }
  else
    apiParamsBase g messages system

/-- `response.content[0].text`: Python raises `IndexError` on an empty list. -/
def firstText (r : Response) : Except String String :=
  match r.content with
  | [] => .error ("IndexError: list index out of range")
  | b :: _ => .ok b.text

/-- Embedding of `_execute_tools` (lines 130-156): dispatch every block of
type `tool_use` in order, collecting one tagged result per dispatch; a
raised exception propagates. The second component is the trace of
dispatches actually performed. -/
def execute_tools (tm : ToolManager) :
    List ContentBlock → Except String (List ToolResult) × List Event
  | [] => (.ok [], [])
  | b :: rest =>
    if b.type == "tool_use" then
      match tm.execute_tool b.name b.input with
      | .error e => (.error e, [])
      | .ok out =>
        match execute_tools tm rest with
        | (.ok rs, evs) =>
          (.ok (⟨"tool_result", b.id, out⟩ :: rs), Event.toolExec b.name b.input b.id out :: evs)
        | (.error e, evs) => (.error e, Event.toolExec b.name b.input b.id out :: evs)
    else
      execute_tools tm rest

/-- How the `for round_num in range(MAX_TOOL_ROUNDS)` loop ends: either a
`return` was executed inside it (normal text, the missing-dispatcher
sentinel, or a propagated exception), or the range was exhausted with the
given last response, message log and number of calls made. -/
inductive LoopExit where
  | returned (r : Except String String)
  | exhausted (lastResp : Option Response) (messages : List Message) (callIdx : Nat)
deriving Repr

/-- Embedding of the round loop of `generate_response` (lines 75-107),
recursing on the remaining rounds; `callIdx` counts the LLM calls already
made, `lastResp` is the value of `current_response` before the iteration. -/
def runRounds (g : AIGenerator) (system_content : String)
    (tools : Option (List ToolSchema)) (tool_manager : Option ToolManager) :
    Nat → List Message → Nat → Option Response → LoopExit × List Event
  | 0, messages, callIdx, lastResp => (.exhausted lastResp messages callIdx, [])
  | fuel + 1, messages, callIdx, _ =>
    match g.client callIdx (apiParamsWithTools g messages system_content tools) with
    | .error e =>
      (.returned (.error e), [Event.llmCall (apiParamsWithTools g messages system_content tools)])
    | .ok current_response =>
      if current_response.stop_reason == "tool_use" then
        match tool_manager with
        | none =>
          (.returned (.ok ("Unable to process tool requests - tool manager not available")),
           [Event.llmCall (apiParamsWithTools g messages system_content tools)])
        | some tm =>
          match execute_tools tm current_response.content with
          | (.error e, evs) =>
            (.returned (.error e),
             Event.llmCall (apiParamsWithTools g messages system_content tools) :: evs)
          | (.ok tool_results, evs) =>
            match runRounds g system_content tools tool_manager fuel
                ((messages ++ [⟨"assistant", MsgContent.blocks current_response.content⟩])
                  ++ [⟨"user", MsgContent.results tool_results⟩]) (callIdx + 1)
                (some current_response) with
            | (ex, evs2) =>
              (ex, Event.llmCall (apiParamsWithTools g messages system_content tools)
                     :: evs ++ evs2)
      else
        (.returned (firstText current_response),
         [Event.llmCall (apiParamsWithTools g messages system_content tools)])

/-- Embedding of `generate_response` (lines 42-128). Returns the result
(`Except.error` models a propagated Python exception) together with the
trace of LLM calls and tool dispatches performed. -/
def generate_response (cfg : Config) (g : AIGenerator) (query : String)
    (conversation_history : Option String) (tools : Option (List ToolSchema))
    (tool_manager : Option ToolManager) : Except String String × List Event :=
  let system_content := build_system_content conversation_history
  let init : List Message := [⟨"user", MsgContent.text query⟩]
  match runRounds g system_content tools tool_manager cfg.MAX_TOOL_ROUNDS init 0 none with
  | (.returned r, evs) => (r, evs)
  | (.exhausted lastResp messages callIdx, evs) =>
    match lastResp with
    | some resp =>
      if resp.stop_reason == "tool_use" then
        let final_params := apiParamsBase g messages system_content
        match g.client callIdx final_params with
        | .error e => (.error e, evs ++ [Event.llmCall final_params])
        | .ok final_response => (firstText final_response, evs ++ [Event.llmCall final_params])
      else
        (firstText resp, evs)
    | none => (.ok ("No response generated"), evs)

end AIGenerator

/-! ## Embedding of `app.py` -/

/-- The session store interface used by `app.py` (`rag_system.session_manager`);
its implementation lives outside `src/`, so it is an oracle. -/
structure SessionManager where
  create_session : Except String String
  clear_session : String → Except String Unit

/-- The RAG system interface used by `app.py`; an oracle. -/
structure RAGSystem where
  session_manager : SessionManager
  query : String → String → Except String (String × List String)

/-- Request body of `POST /api/query`. -/
structure QueryRequest where
  query : String
  session_id : Option String
deriving DecidableEq, Repr

/-- Response body of `POST /api/query`. -/
structure QueryResponse where
  answer : String
  sources : List String
  session_id : String
deriving DecidableEq, Repr

/-- Request body of `POST /api/session/clear`. -/
structure SessionClearRequest where
  session_id : String
deriving DecidableEq, Repr

/-- Response body of `POST /api/session/clear`. -/
structure SessionClearResponse where
  success : Bool
  message : String
deriving DecidableEq, Repr

/-- Outcome of an endpoint: a body, or a raised `HTTPException`. -/
inductive HttpResult (α : Type) where
  | ok (value : α)
  | httpError (status_code : Nat) (detail : String)
deriving DecidableEq, Repr

/-- Python truthiness of `request.session_id` (`if not session_id:`). -/
def sessionIdTruthy : Option String → Bool
  | none => false
  | some s => s != ""

/-- The session id used by `query_documents` (`app.py` lines 91-93): the
request's own id when truthy, else a freshly created one (creation may
raise). -/
def resolvedSession (rag : RAGSystem) (request : QueryRequest) : Except String String :=
  if sessionIdTruthy request.session_id then
    .ok (request.session_id.getD "")
  else
    rag.session_manager.create_session

/-- Embedding of the `query_documents` endpoint (`app.py` lines 86-104):
resolve or create the session id, run the RAG query, return a complete
response; any exception becomes `HTTPException(500, detail=str(e))`. -/
def query_documents (rag : RAGSystem) (request : QueryRequest) :
    HttpResult QueryResponse :=
  match resolvedSession rag request with
  | .error e => .httpError 500 e
  | .ok session_id =>
    match rag.query request.query session_id with
    | .error e => .httpError 500 e
    | .ok (answer, sources) => .ok ⟨answer, sources, session_id⟩

/-- Embedding of the `clear_session` endpoint (`app.py` lines 118-131):
a caught exception yields `success = false` with an error message, so the
endpoint always returns a response body and never re-raises. -/
def clear_session (rag : RAGSystem) (request : SessionClearRequest) :
    SessionClearResponse :=
  match rag.session_manager.clear_session request.session_id with
  | .ok _ => ⟨true, "Session " ++ request.session_id ++ " cleared successfully"⟩
  | .error e => ⟨false, "Error clearing session: " ++ e⟩

/-! ## Trace observables -/

/-- Whether an event is an LLM call. -/
def Event.isLlmCall : Event → Bool
  | .llmCall _ => true
  | _ => false

/-- Whether an event is a tool dispatch. -/
def Event.isToolExec : Event → Bool
  | .toolExec _ _ _ _ => true
  | _ => false

/-- The parameters of the LLM calls in a trace, in call order. -/
def llmParams (evs : List Event) : List ApiParams :=
  evs.filterMap fun e => match e with | .llmCall p => some p | _ => none

/-- The parameters of the LLM calls made by one `generate_response` run. -/
def callParams (cfg : Config) (g : AIGenerator) (query : String)
    (conversation_history : Option String) (tools : Option (List ToolSchema))
    (tool_manager : Option ToolManager) : List ApiParams :=
  llmParams (AIGenerator.generate_response cfg g query conversation_history tools tool_manager).2

/-! ## Closed forms for a run against a scripted environment

When the client always answers call `i` with `resps i` and every tool
dispatch of `n`/`inp` returns `toolOut n inp`, the loop's message log and
trace have the closed forms below. -/

/-- The content blocks of type `tool_use`, in response order. -/
def toolUseBlocks (bs : List ContentBlock) : List ContentBlock :=
  bs.filter fun b => b.type == "tool_use"

/-- The dispatch trace `_execute_tools` produces on `bs` when every dispatch
succeeds with output `toolOut name input`. -/
def dispatchEvents (toolOut : String → ToolInput → String) (bs : List ContentBlock) :
    List Event :=
  (toolUseBlocks bs).map fun b => Event.toolExec b.name b.input b.id (toolOut b.name b.input)

/-- The tool-result list `_execute_tools` returns on `bs` when every dispatch
succeeds with output `toolOut name input`. -/
def resultsFor (toolOut : String → ToolInput → String) (bs : List ContentBlock) :
    List ToolResult :=
  (toolUseBlocks bs).map fun b => ⟨"tool_result", b.id, toolOut b.name b.input⟩

/-- The two messages one completed tool round appends for response `r`. -/
def stepMessages (toolOut : String → ToolInput → String) (r : Response)
    (messages : List Message) : List Message :=
  messages ++ [⟨"assistant", MsgContent.blocks r.content⟩,
               ⟨"user", MsgContent.results (resultsFor toolOut r.content)⟩]

/-- The message log after `t` completed tool rounds starting from `messages`
at call index `c`. -/
def scriptMessages (toolOut : String → ToolInput → String) (resps : Nat → Response) :
    Nat → List Message → Nat → List Message
  | _, messages, 0 => messages
  | c, messages, t + 1 =>
    scriptMessages toolOut resps (c + 1) (stepMessages toolOut (resps c) messages) t

/-- The trace of `t` completed tool rounds starting from `messages` at call
index `c`. -/
def scriptTrace (g : AIGenerator) (sys : String) (tools : Option (List ToolSchema))
    (toolOut : String → ToolInput → String) (resps : Nat → Response) :
    Nat → List Message → Nat → List Event
  | _, _, 0 => []
  | c, messages, t + 1 =>
    Event.llmCall (AIGenerator.apiParamsWithTools g messages sys tools) ::
      dispatchEvents toolOut (resps c).content ++
        scriptTrace g sys tools toolOut resps (c + 1)
          (stepMessages toolOut (resps c) messages) t

/-- The value of `current_response` after `t` completed tool rounds starting
from `r0` at call index `c`. -/
def lastScriptResp (resps : Nat → Response) (r0 : Option Response) (c : Nat) :
    Nat → Option Response
  | 0 => r0
  | t + 1 => some (resps (c + t))

/-- Modelled from the spec: `SessionManager.clear_session` itself
(`session_manager.py` is not under `src/`). Per the spec, "clearing an
unknown session id is not an error": clearing removes the id when present
and returns normally in every case. -/
def specSessionManager (sessions : List String) : SessionManager :=
  { create_session := .ok ("session_" ++ toString (sessions.length + 1))
    clear_session := fun _ => .ok () }

/-- The call parameters of `t` completed tool rounds, in call order. -/
def scriptParams (g : AIGenerator) (sys : String) (tools : Option (List ToolSchema))
    (toolOut : String → ToolInput → String) (resps : Nat → Response) :
    Nat → List Message → Nat → List ApiParams
  | _, _, 0 => []
  | c, messages, t + 1 =>
    AIGenerator.apiParamsWithTools g messages sys tools ::
      scriptParams g sys tools toolOut resps (c + 1)
        (stepMessages toolOut (resps c) messages) t

/-! ## Decidable checkers used to state the claims -/

/-- Roles strictly alternate, starting with `user` when the flag is true. -/
def alternatesFrom : Bool → List Message → Bool
  | _, [] => true
  | isUser, m :: rest =>
    (m.role == (if isUser then "user" else "assistant")) && alternatesFrom (!isUser) rest

/-- Exactly one assistant message of raw content blocks followed by one user
message of tool results. -/
def isRoundPair : List Message → Bool
  | [a, u] =>
    (a.role == "assistant") && (u.role == "user") &&
      (match a.content with | MsgContent.blocks _ => true | _ => false) &&
      (match u.content with | MsgContent.results _ => true | _ => false)
  | _ => false

/-- `next` extends `cur` by exactly one assistant message of raw content
blocks followed by one user message of tool results. -/
def extendsByRound (cur next : List Message) : Bool :=
  (next.take cur.length == cur) && isRoundPair (next.drop cur.length)

/-- The role expected after `n` messages when position 0 expects flag
`true` (= user) and roles alternate. -/
def flagAfter (flag : Bool) (n : Nat) : Bool :=
  if n % 2 = 0 then flag else !flag

/-- Every consecutive pair of call parameters grows the log by exactly one
completed round. -/
def consecutiveOk : List ApiParams → Bool
  | p :: q :: rest => extendsByRound p.messages q.messages && consecutiveOk (q :: rest)
  | _ => true

/-- The first call (if any) sees exactly the given message log. -/
def headMessagesIs (msgs : List Message) : List ApiParams → Bool
  | [] => true
  | p :: _ => p.messages == msgs

/-- Call number `j` sees a log of length `n + 2 * j` whose roles alternate
`user, assistant, user, ...`. -/
def lengthAlternOk : Nat → List ApiParams → Bool
  | _, [] => true
  | n, p :: rest =>
    (p.messages.length == n) && alternatesFrom true p.messages && lengthAlternOk (n + 2) rest

/-- The full invariant of claim C2 over the parameters of the LLM calls of
one `generate_response` run: seeded with the single literal user query,
append-only growth by (assistant, user) pairs, length `1 + 2k` after `k`
rounds, strictly alternating roles. -/
def chainCheck (query : String) (ps : List ApiParams) : Bool :=
  headMessagesIs [⟨"user", MsgContent.text query⟩] ps &&
    consecutiveOk ps && lengthAlternOk 1 ps

/-- Every LLM call in the trace passed exactly `sys` as system content. -/
def systemCheck (sys : String) : List Event → Bool
  | [] => true
  | Event.llmCall p :: rest => (p.system == sys) && systemCheck sys rest
  | Event.toolExec _ _ _ _ :: rest => systemCheck sys rest

/-- Substring test on explicit character lists (used to state that a string
does not contain the literal label `Previous conversation:`). -/
def startsWithChars : List Char → List Char → Bool
  | _, [] => true
  | [], _ :: _ => false
  | c :: cs, p :: ps => c == p && startsWithChars cs ps

/-- Whether `pat` occurs as a contiguous substring. -/
def hasSubChars : List Char → List Char → Bool
  | [], p => p.isEmpty
  | c :: cs, p => startsWithChars (c :: cs) p || hasSubChars cs p

/-- Whether `pat` occurs as a contiguous substring of `s`. -/
def containsText (s pat : String) : Bool := hasSubChars s.data pat.data

/-! ## Concrete fixtures (scripted environments used by witnesses) -/

/-- A response requesting one tool call. -/
def wToolUseResp : Response :=
  ⟨"tool_use", [⟨"tool_use", "", "search_course_content", ⟨[("query", "q")]⟩, "toolu_1"⟩]⟩

/-- A plain text response. -/
def wTextResp : Response := ⟨"end_turn", [⟨"text", "final answer", "", ⟨[]⟩, ""⟩]⟩

/-- A script requesting tools on the first two calls, then text. -/
def wResps : Nat → Response := fun i => if i < 2 then wToolUseResp else wTextResp

/-- A script requesting tools on the first call only. -/
def wRespsStop : Nat → Response := fun i => if i = 0 then wToolUseResp else wTextResp

/-- A script answering with text immediately. -/
def wRespsText : Nat → Response := fun _ => wTextResp

/-- A generator whose client plays the two-tool-rounds script. -/
def wG : AIGenerator := ⟨"claude-sonnet-4", fun i _ => .ok (wResps i)⟩

/-- A generator whose client plays the one-tool-round script. -/
def wGStop : AIGenerator := ⟨"claude-sonnet-4", fun i _ => .ok (wRespsStop i)⟩

/-- A generator whose client answers with text immediately. -/
def wGText : AIGenerator := ⟨"claude-sonnet-4", fun i _ => .ok (wRespsText i)⟩

/-- The constant output of the fixture tool manager. -/
def wToolOut : String → ToolInput → String := fun _ _ => "search result"

/-- A tool manager that always succeeds with `wToolOut`. -/
def wTM : ToolManager := ⟨fun n inp => .ok (wToolOut n inp)⟩

/-- A configuration with a budget of two tool rounds, as in the tests. -/
def wCfg : Config := ⟨2⟩

/-- A non-empty tool schema list. -/
def wTools : Option (List ToolSchema) :=
  some [⟨"search_course_content", "Search course materials", "object"⟩]

/-- A generator whose client always raises. -/
def wGErr : AIGenerator := ⟨"claude-sonnet-4", fun _ _ => .error ("network error")⟩

/-- A generator whose client requests tools for two rounds and raises on the
third (the forced final) call. -/
def wGFinalErr : AIGenerator :=
  ⟨"claude-sonnet-4", fun i _ => if i < 2 then .ok wToolUseResp else .error ("network error")⟩

/-- A tool manager whose tool body raises. -/
def wTMErr : ToolManager := ⟨fun _ _ => .error ("tool crashed")⟩

/-- A tool-use content block used in witnesses. -/
def wBlock : ContentBlock := ⟨"tool_use", "", "search_course_content", ⟨[]⟩, "toolu_9"⟩

/-- A RAG system whose query succeeds. -/
def wOkRag : RAGSystem :=
  ⟨⟨.ok ("session_1"), fun _ => .ok ()⟩, fun _ _ => .ok ("the answer", ["src1"])⟩

/-- A RAG system whose query raises. -/
def wFailRag : RAGSystem :=
  ⟨⟨.ok ("session_1"), fun _ => .ok ()⟩, fun _ _ => .error ("boom")⟩

/-- A RAG system whose session store raises on clearing. -/
def wFailClearRag : RAGSystem :=
  ⟨⟨.ok ("session_1"), fun _ => .error ("db down")⟩, fun _ _ => .ok ("", [])⟩

/-! ## Helper lemmas -/

theorem execute_tools_eq (tm : ToolManager) (toolOut : String → ToolInput → String)
    (hmgr : ∀ n inp, tm.execute_tool n inp = .ok (toolOut n inp)) :
    ∀ bs, AIGenerator.execute_tools tm bs =
      (.ok (resultsFor toolOut bs), dispatchEvents toolOut bs) := by
  intro bs
  induction bs with
  | nil => simp [AIGenerator.execute_tools, resultsFor, dispatchEvents, toolUseBlocks]
  | cons b rest ih =>
    cases hb : (b.type == "tool_use") with
    | true =>
      simp [AIGenerator.execute_tools, hb, hmgr, ih, resultsFor, dispatchEvents,
        toolUseBlocks, List.filter_cons]
    | false =>
      simp [AIGenerator.execute_tools, hb, ih, resultsFor, dispatchEvents,
        toolUseBlocks, List.filter_cons]

theorem lastScriptResp_shift (resps : Nat → Response) (c s : Nat) :
    lastScriptResp resps (some (resps c)) (c + 1) s =
      lastScriptResp resps none c (s + 1) := by
  cases s with
  | zero => simp [lastScriptResp]
  | succ u =>
    have he : c + 1 + u = c + (u + 1) := by omega
    simp [lastScriptResp, he]

theorem runRounds_split (g : AIGenerator) (sys : String) (tools : Option (List ToolSchema))
    (tm : ToolManager) (toolOut : String → ToolInput → String) (resps : Nat → Response)
    (climit : Nat)
    (hclient : ∀ i p, i < climit → g.client i p = .ok (resps i))
    (hmgr : ∀ n inp, tm.execute_tool n inp = .ok (toolOut n inp)) :
    ∀ (t fuel c : Nat) (messages : List Message) (r0 : Option Response), t ≤ fuel →
    c + t ≤ climit →
    (∀ i, i < t → (resps (c + i)).stop_reason = "tool_use") →
    AIGenerator.runRounds g sys tools (some tm) fuel messages c r0 =
      ((AIGenerator.runRounds g sys tools (some tm) (fuel - t)
          (scriptMessages toolOut resps c messages t) (c + t)
          (lastScriptResp resps r0 c t)).1,
       scriptTrace g sys tools toolOut resps c messages t ++
         (AIGenerator.runRounds g sys tools (some tm) (fuel - t)
            (scriptMessages toolOut resps c messages t) (c + t)
            (lastScriptResp resps r0 c t)).2) := by
  intro t
  induction t with
  | zero =>
    intro fuel c messages r0 _ _ _
    simp [scriptMessages, scriptTrace, lastScriptResp]
  | succ s ih =>
    intro fuel c messages r0 hle hcl htool
    cases fuel with
    | zero => omega
    | succ f =>
      have hsf : s ≤ f := by omega
      have hc0 : g.client c (AIGenerator.apiParamsWithTools g messages sys tools) =
          .ok (resps c) :=
        hclient c _ (by omega)
      have h0 : (resps c).stop_reason = "tool_use" := by
        have h := htool 0 (by omega)
        simpa using h
      have hshift : ∀ i, i < s → (resps (c + 1 + i)).stop_reason = "tool_use" := by
        intro i hi
        have h := htool (i + 1) (by omega)
        have he : c + (i + 1) = c + 1 + i := by omega
        rw [he] at h
        exact h
      have hlast : lastScriptResp resps (some (resps c)) (c + 1) s =
          lastScriptResp resps r0 c (s + 1) := by
        cases s with
        | zero => simp [lastScriptResp]
        | succ u =>
          have he : c + 1 + u = c + (u + 1) := by omega
          simp [lastScriptResp, he]
      have hc : c + 1 + s = c + (s + 1) := by omega
      have hmsg : (messages ++ [⟨"assistant", MsgContent.blocks (resps c).content⟩])
            ++ [⟨"user", MsgContent.results (resultsFor toolOut (resps c).content)⟩]
          = stepMessages toolOut (resps c) messages := by
        simp [stepMessages]
      have step := ih f (c + 1) (stepMessages toolOut (resps c) messages)
        (some (resps c)) hsf (by omega) hshift
      simp only [AIGenerator.runRounds, hc0, h0, beq_self_eq_true, if_true]
      rw [execute_tools_eq tm toolOut hmgr]
      simp only [hmsg]
      rw [step]
      simp [scriptMessages, scriptTrace, hlast, hc, Nat.succ_sub_succ, List.append_assoc]

theorem runRounds_script (g : AIGenerator) (sys : String) (tools : Option (List ToolSchema))
    (tm : ToolManager) (toolOut : String → ToolInput → String) (resps : Nat → Response)
    (climit : Nat)
    (hclient : ∀ i p, i < climit → g.client i p = .ok (resps i))
    (hmgr : ∀ n inp, tm.execute_tool n inp = .ok (toolOut n inp)) :
    ∀ (fuel c : Nat) (messages : List Message) (r0 : Option Response),
    c + fuel ≤ climit →
    (∀ i, i < fuel → (resps (c + i)).stop_reason = "tool_use") →
    AIGenerator.runRounds g sys tools (some tm) fuel messages c r0 =
      (.exhausted (lastScriptResp resps r0 c fuel)
        (scriptMessages toolOut resps c messages fuel) (c + fuel),
       scriptTrace g sys tools toolOut resps c messages fuel) := by
  intro fuel c messages r0 hcl h
  have hs := runRounds_split g sys tools tm toolOut resps climit hclient hmgr fuel fuel
    c messages r0 le_rfl hcl h
  rw [hs]
  simp [AIGenerator.runRounds, Nat.sub_self]

theorem runRounds_stop (g : AIGenerator) (sys : String) (tools : Option (List ToolSchema))
    (tm : ToolManager) (toolOut : String → ToolInput → String) (resps : Nat → Response)
    (climit : Nat)
    (hclient : ∀ i p, i < climit → g.client i p = .ok (resps i))
    (hmgr : ∀ n inp, tm.execute_tool n inp = .ok (toolOut n inp)) :
    ∀ (t fuel c : Nat) (messages : List Message) (r0 : Option Response), t < fuel →
    c + t < climit →
    (∀ i, i < t → (resps (c + i)).stop_reason = "tool_use") →
    (resps (c + t)).stop_reason ≠ "tool_use" →
    AIGenerator.runRounds g sys tools (some tm) fuel messages c r0 =
      (.returned (AIGenerator.firstText (resps (c + t))),
       scriptTrace g sys tools toolOut resps c messages t ++
         [Event.llmCall (AIGenerator.apiParamsWithTools g
            (scriptMessages toolOut resps c messages t) sys tools)]) := by
  intro t fuel c messages r0 hlt hclm htool hstop
  rw [runRounds_split g sys tools tm toolOut resps climit hclient hmgr t fuel c messages r0
    (Nat.le_of_lt hlt) (by omega) htool]
  obtain ⟨k, hk⟩ : ∃ k, fuel - t = k + 1 := ⟨fuel - t - 1, by omega⟩
  have hb : ((resps (c + t)).stop_reason == "tool_use") = false :=
    beq_eq_false_iff_ne.mpr hstop
  have hct : g.client (c + t) (AIGenerator.apiParamsWithTools g
      (scriptMessages toolOut resps c messages t) sys tools) = .ok (resps (c + t)) :=
    hclient (c + t) _ hclm
  rw [hk]
  simp [AIGenerator.runRounds, hct, hb]

theorem llmParams_append (a b : List Event) :
    llmParams (a ++ b) = llmParams a ++ llmParams b := by
  simp [llmParams, List.filterMap_append]

theorem llmParams_dispatchEvents (toolOut : String → ToolInput → String)
    (bs : List ContentBlock) : llmParams (dispatchEvents toolOut bs) = [] := by
  simp only [dispatchEvents, llmParams]
  induction toolUseBlocks bs with
  | nil => simp
  | cons b rest ih => simp only [List.map_cons, List.filterMap_cons]; exact ih

theorem llmParams_cons_llm (p : ApiParams) (l : List Event) :
    llmParams (Event.llmCall p :: l) = p :: llmParams l := by
  simp [llmParams]

theorem llmParams_scriptTrace (g : AIGenerator) (sys : String)
    (tools : Option (List ToolSchema)) (toolOut : String → ToolInput → String)
    (resps : Nat → Response) :
    ∀ (t c : Nat) (messages : List Message),
    llmParams (scriptTrace g sys tools toolOut resps c messages t) =
      scriptParams g sys tools toolOut resps c messages t := by
  intro t
  induction t with
  | zero => intro c messages; simp [scriptTrace, scriptParams, llmParams]
  | succ s ih =>
    intro c messages
    simp only [scriptTrace, scriptParams]
    simp only [llmParams_cons_llm, llmParams_append, llmParams_dispatchEvents, ih]
    simp

theorem scriptParams_length (g : AIGenerator) (sys : String)
    (tools : Option (List ToolSchema)) (toolOut : String → ToolInput → String)
    (resps : Nat → Response) :
    ∀ (t c : Nat) (messages : List Message),
    (scriptParams g sys tools toolOut resps c messages t).length = t := by
  intro t
  induction t with
  | zero => intro c messages; simp [scriptParams]
  | succ s ih => intro c messages; simp [scriptParams, ih]

theorem llmParams_cons_tool (n : String) (i : ToolInput) (d o : String) (l : List Event) :
    llmParams (Event.toolExec n i d o :: l) = llmParams l := by
  simp [llmParams]

theorem llmParams_execute_tools (tm : ToolManager) :
    ∀ bs, llmParams (AIGenerator.execute_tools tm bs).2 = [] := by
  intro bs
  induction bs with
  | nil => simp [AIGenerator.execute_tools, llmParams]
  | cons b rest ih =>
    simp only [AIGenerator.execute_tools]
    cases hb : (b.type == "tool_use") with
    | false => simpa [hb] using ih
    | true =>
      simp only [hb, if_true]
      cases hex : tm.execute_tool b.name b.input with
      | error e => simp [llmParams]
      | ok out =>
        rcases hrest : AIGenerator.execute_tools tm rest with ⟨res, evs⟩
        rw [hrest] at ih
        cases res with
        | ok rs => simpa [llmParams_cons_tool] using ih
        | error e => simpa [llmParams_cons_tool] using ih

theorem apiParamsBase_system (g : AIGenerator) (m : List Message) (sys : String) :
    (AIGenerator.apiParamsBase g m sys).system = sys := rfl

theorem apiParamsBase_messages (g : AIGenerator) (m : List Message) (sys : String) :
    (AIGenerator.apiParamsBase g m sys).messages = m := rfl

theorem apiParamsWithTools_system (g : AIGenerator) (m : List Message) (sys : String)
    (tools : Option (List ToolSchema)) :
    (AIGenerator.apiParamsWithTools g m sys tools).system = sys := by
  unfold AIGenerator.apiParamsWithTools
  split <;> rfl

theorem apiParamsWithTools_messages (g : AIGenerator) (m : List Message) (sys : String)
    (tools : Option (List ToolSchema)) :
    (AIGenerator.apiParamsWithTools g m sys tools).messages = m := by
  unfold AIGenerator.apiParamsWithTools
  split <;> rfl

theorem systemCheck_append (sys : String) (a b : List Event) :
    systemCheck sys (a ++ b) = (systemCheck sys a && systemCheck sys b) := by
  induction a with
  | nil => simp [systemCheck]
  | cons e rest ih => cases e <;> simp [systemCheck, ih, Bool.and_assoc]

theorem systemCheck_execute_tools (sys : String) (tm : ToolManager) :
    ∀ bs, systemCheck sys (AIGenerator.execute_tools tm bs).2 = true := by
  intro bs
  induction bs with
  | nil => simp [AIGenerator.execute_tools, systemCheck]
  | cons b rest ih =>
    simp only [AIGenerator.execute_tools]
    cases hb : (b.type == "tool_use") with
    | false => simpa [hb] using ih
    | true =>
      simp only [hb, if_true]
      cases hex : tm.execute_tool b.name b.input with
      | error e => simp [systemCheck]
      | ok out =>
        rcases hrest : AIGenerator.execute_tools tm rest with ⟨res, evs⟩
        rw [hrest] at ih
        cases res with
        | ok rs => simpa [systemCheck] using ih
        | error e => simpa [systemCheck] using ih

theorem runRounds_systemCheck (g : AIGenerator) (sys : String)
    (tools : Option (List ToolSchema)) (tm : Option ToolManager) :
    ∀ (fuel : Nat) (messages : List Message) (c : Nat) (r0 : Option Response),
    systemCheck sys (AIGenerator.runRounds g sys tools tm fuel messages c r0).2 = true := by
  intro fuel
  induction fuel with
  | zero => intro messages c r0; simp [AIGenerator.runRounds, systemCheck]
  | succ f ih =>
    intro messages c r0
    simp only [AIGenerator.runRounds]
    cases hcl : g.client c (AIGenerator.apiParamsWithTools g messages sys tools) with
    | error e => simp [systemCheck, apiParamsWithTools_system]
    | ok r =>
      cases hsr : (r.stop_reason == "tool_use") with
      | false => simp [hsr, systemCheck, apiParamsWithTools_system, AIGenerator.firstText]
      | true =>
        simp only [hsr, if_true]
        cases tm with
        | none => simp [systemCheck, apiParamsWithTools_system]
        | some tm' =>
          have hT := systemCheck_execute_tools sys tm' r.content
          rcases hex : AIGenerator.execute_tools tm' r.content with ⟨res, evsT⟩
          rw [hex] at hT
          cases res with
          | error e => simp [hex, systemCheck, apiParamsWithTools_system, hT]
          | ok rs =>
            simp [hex, systemCheck, apiParamsWithTools_system, systemCheck_append, hT, ih]

theorem generate_response_systemCheck (cfg : Config) (g : AIGenerator) (query : String)
    (hist : Option String) (tools : Option (List ToolSchema)) (tm : Option ToolManager) :
    systemCheck (AIGenerator.build_system_content hist)
      (AIGenerator.generate_response cfg g query hist tools tm).2 = true := by
  simp only [AIGenerator.generate_response]
  have hall := runRounds_systemCheck g (AIGenerator.build_system_content hist) tools tm
    cfg.MAX_TOOL_ROUNDS [⟨"user", MsgContent.text query⟩] 0 none
  rcases hrun : AIGenerator.runRounds g (AIGenerator.build_system_content hist) tools tm
      cfg.MAX_TOOL_ROUNDS [⟨"user", MsgContent.text query⟩] 0 none with ⟨ex, evs⟩
  rw [hrun] at hall
  cases ex with
  | returned r => simpa using hall
  | exhausted lastResp m ci =>
    cases lastResp with
    | none => simpa using hall
    | some resp =>
      cases hsr : (resp.stop_reason == "tool_use") with
      | false => simpa [hsr] using hall
      | true =>
        cases hcl : g.client ci (AIGenerator.apiParamsBase g m
            (AIGenerator.build_system_content hist)) with
        | error e => simp [hsr, hcl, systemCheck_append, systemCheck, hall, apiParamsBase_system]
        | ok fr => simp [hsr, hcl, systemCheck_append, systemCheck, hall, apiParamsBase_system]

theorem scriptMessages_length (toolOut : String → ToolInput → String)
    (resps : Nat → Response) :
    ∀ (t c : Nat) (messages : List Message),
    (scriptMessages toolOut resps c messages t).length = messages.length + 2 * t := by
  intro t
  induction t with
  | zero => intro c messages; simp [scriptMessages]
  | succ s ih =>
    intro c messages
    simp [scriptMessages, ih, stepMessages]
    omega

theorem alternatesFrom_append (msgs tail : List Message) :
    ∀ flag : Bool, alternatesFrom flag (msgs ++ tail) =
      (alternatesFrom flag msgs && alternatesFrom (flagAfter flag msgs.length) tail) := by
  induction msgs with
  | nil => intro flag; simp [alternatesFrom, flagAfter]
  | cons m rest ih =>
    intro flag
    have h2 : flagAfter flag (rest.length + 1) = flagAfter (!flag) rest.length := by
      rcases Nat.mod_two_eq_zero_or_one rest.length with h | h
      · have h1 : (rest.length + 1) % 2 = 1 := by omega
        simp [flagAfter, h, h1]
      · have h1 : (rest.length + 1) % 2 = 0 := by omega
        simp [flagAfter, h, h1]
    simp [alternatesFrom, ih, h2, Bool.and_assoc]

theorem alternatesFrom_round (messages : List Message) (bs : List ContentBlock)
    (rs : List ToolResult) (halt : alternatesFrom true messages = true)
    (hodd : messages.length % 2 = 1) :
    alternatesFrom true (messages ++ [⟨"assistant", MsgContent.blocks bs⟩,
      ⟨"user", MsgContent.results rs⟩]) = true := by
  rw [alternatesFrom_append]
  simp [halt, flagAfter, hodd, alternatesFrom]

theorem extendsByRound_step (messages : List Message) (bs : List ContentBlock)
    (rs : List ToolResult) :
    extendsByRound messages (messages ++ [⟨"assistant", MsgContent.blocks bs⟩,
      ⟨"user", MsgContent.results rs⟩]) = true := by
  simp [extendsByRound, List.take_left, List.drop_left, isRoundPair]

theorem consecutiveOk_cons (p : ApiParams) (ps : List ApiParams) (m2 : List Message)
    (h1 : consecutiveOk ps = true) (h2 : headMessagesIs m2 ps = true)
    (h3 : extendsByRound p.messages m2 = true) :
    consecutiveOk (p :: ps) = true := by
  cases ps with
  | nil => simp [consecutiveOk]
  | cons q rest =>
    have hq : q.messages = m2 := by simpa [headMessagesIs] using h2
    simp only [consecutiveOk, hq, h3, h1, Bool.and_self]

theorem runRounds_chain (g : AIGenerator) (sys : String) (tools : Option (List ToolSchema))
    (tm : Option ToolManager) :
    ∀ (fuel : Nat) (messages : List Message) (c : Nat) (r0 : Option Response),
    alternatesFrom true messages = true → messages.length % 2 = 1 →
    (headMessagesIs messages
        (llmParams (AIGenerator.runRounds g sys tools tm fuel messages c r0).2) = true ∧
     consecutiveOk
        (llmParams (AIGenerator.runRounds g sys tools tm fuel messages c r0).2) = true ∧
     lengthAlternOk messages.length
        (llmParams (AIGenerator.runRounds g sys tools tm fuel messages c r0).2) = true) ∧
    (∀ (r : Option Response) (m : List Message) (ci : Nat),
      (AIGenerator.runRounds g sys tools tm fuel messages c r0).1 =
        AIGenerator.LoopExit.exhausted r m ci →
      headMessagesIs messages
        (llmParams (AIGenerator.runRounds g sys tools tm fuel messages c r0).2
          ++ [AIGenerator.apiParamsBase g m sys]) = true ∧
      consecutiveOk
        (llmParams (AIGenerator.runRounds g sys tools tm fuel messages c r0).2
          ++ [AIGenerator.apiParamsBase g m sys]) = true ∧
      lengthAlternOk messages.length
        (llmParams (AIGenerator.runRounds g sys tools tm fuel messages c r0).2
          ++ [AIGenerator.apiParamsBase g m sys]) = true) := by
  intro fuel
  induction fuel with
  | zero =>
    intro messages c r0 halt hodd
    constructor
    · simp [AIGenerator.runRounds, llmParams, headMessagesIs, consecutiveOk, lengthAlternOk]
    · intro r m ci heq
      simp only [AIGenerator.runRounds] at heq
      obtain ⟨h1, h2, h3⟩ := AIGenerator.LoopExit.exhausted.inj heq
      subst h2
      simp [AIGenerator.runRounds, llmParams, headMessagesIs, consecutiveOk, lengthAlternOk,
        apiParamsBase_messages, halt]
  | succ f ih =>
    intro messages c r0 halt hodd
    simp only [AIGenerator.runRounds]
    cases hcl : g.client c (AIGenerator.apiParamsWithTools g messages sys tools) with
    | error e =>
      constructor
      · simp [llmParams_cons_llm, llmParams, headMessagesIs, consecutiveOk, lengthAlternOk,
          apiParamsWithTools_messages, halt]
      · intro r m ci heq
        simp at heq
    | ok r =>
      cases hsr : (r.stop_reason == "tool_use") with
      | false =>
        simp only [hsr, Bool.false_eq_true, if_false]
        constructor
        · simp [llmParams_cons_llm, llmParams, headMessagesIs, consecutiveOk, lengthAlternOk,
            apiParamsWithTools_messages, halt]
        · intro r' m ci heq
          simp at heq
      | true =>
        simp only [hsr, if_true]
        cases tm with
        | none =>
          constructor
          · simp [llmParams_cons_llm, llmParams, headMessagesIs, consecutiveOk, lengthAlternOk,
              apiParamsWithTools_messages, halt]
          · intro r' m ci heq
            simp at heq
        | some tm' =>
          have hT := llmParams_execute_tools tm' r.content
          rcases hex : AIGenerator.execute_tools tm' r.content with ⟨res, evsT⟩
          rw [hex] at hT
          cases res with
          | error e =>
            simp only [hex]
            have hT2 : llmParams evsT = [] := hT
            have hT3 : evsT.filterMap
                (fun e => match e with | Event.llmCall p => some p | _ => none) = [] := hT
            constructor
            · simp [llmParams_cons_llm, llmParams_append, hT2, hT3, headMessagesIs,
                consecutiveOk, lengthAlternOk, apiParamsWithTools_messages, halt]
            · intro r' m ci heq
              simp at heq
          | ok rs =>
            simp only [hex]
            have hT2 : llmParams evsT = [] := hT
            have hassoc : (messages ++ [(⟨"assistant", MsgContent.blocks r.content⟩ : Message)])
                ++ [(⟨"user", MsgContent.results rs⟩ : Message)]
                = messages ++ [⟨"assistant", MsgContent.blocks r.content⟩,
                    ⟨"user", MsgContent.results rs⟩] := by
              simp
            have halt2 : alternatesFrom true
                ((messages ++ [⟨"assistant", MsgContent.blocks r.content⟩])
                  ++ [⟨"user", MsgContent.results rs⟩]) = true := by
              rw [hassoc]
              exact alternatesFrom_round messages r.content rs halt hodd
            have hodd2 : ((messages ++ [(⟨"assistant", MsgContent.blocks r.content⟩ : Message)])
                ++ [(⟨"user", MsgContent.results rs⟩ : Message)]).length % 2 = 1 := by
              simp
              omega
            have hlen2 : ((messages ++ [(⟨"assistant", MsgContent.blocks r.content⟩ : Message)])
                ++ [(⟨"user", MsgContent.results rs⟩ : Message)]).length
                = messages.length + 2 := by
              simp
            have ihh := ih ((messages ++ [⟨"assistant", MsgContent.blocks r.content⟩])
              ++ [⟨"user", MsgContent.results rs⟩]) (c + 1) (some r) halt2 hodd2
            rcases hrun : AIGenerator.runRounds g sys tools (some tm') f
                ((messages ++ [⟨"assistant", MsgContent.blocks r.content⟩])
                  ++ [⟨"user", MsgContent.results rs⟩]) (c + 1) (some r) with ⟨ex2, evs2⟩
            rw [hrun] at ihh
            obtain ⟨⟨ih1, ih2, ih3⟩, ih4⟩ := ihh
            rw [hlen2] at ih3
            have hExt : extendsByRound
                (AIGenerator.apiParamsWithTools g messages sys tools).messages
                ((messages ++ [⟨"assistant", MsgContent.blocks r.content⟩])
                  ++ [⟨"user", MsgContent.results rs⟩]) = true := by
              rw [apiParamsWithTools_messages, hassoc]
              exact extendsByRound_step messages r.content rs
            have hps : llmParams (Event.llmCall
                  (AIGenerator.apiParamsWithTools g messages sys tools) :: evsT ++ evs2) =
                AIGenerator.apiParamsWithTools g messages sys tools :: llmParams evs2 := by
              have h := hT2
              simp only [llmParams] at h ⊢
              simp [List.filterMap_append, h]
            rw [hrun]
            constructor
            · refine ⟨?_, ?_, ?_⟩
              · simp only [hps]
                simp [headMessagesIs, apiParamsWithTools_messages]
              · simp only [hps]
                exact consecutiveOk_cons _ _ _ ih2 ih1 hExt
              · simp only [hps]
                simp [lengthAlternOk, apiParamsWithTools_messages, halt, ih3]
            · intro r' m ci heq
              simp only at heq
              obtain ⟨j1, j2, j3⟩ := ih4 r' m ci heq
              rw [hlen2] at j3
              refine ⟨?_, ?_, ?_⟩
              · simp only [hps]
                simp [headMessagesIs, apiParamsWithTools_messages]
              · simp only [hps]
                simp only [List.cons_append]
                exact consecutiveOk_cons _ _ _ j2 j1 hExt
              · simp only [hps]
                simp only [List.cons_append]
                simp [lengthAlternOk, apiParamsWithTools_messages, halt, j3]

theorem llmParams_nil : llmParams [] = [] := rfl

theorem generate_response_exhaust (cfg : Config) (g : AIGenerator) (query : String)
    (hist : Option String) (tools : Option (List ToolSchema)) (tm : ToolManager)
    (toolOut : String → ToolInput → String) (resps : Nat → Response)
    (hclient : ∀ i p, g.client i p = .ok (resps i))
    (hmgr : ∀ n inp, tm.execute_tool n inp = .ok (toolOut n inp))
    (hM : 1 ≤ cfg.MAX_TOOL_ROUNDS)
    (htool : ∀ i, i < cfg.MAX_TOOL_ROUNDS → (resps i).stop_reason = "tool_use") :
    AIGenerator.generate_response cfg g query hist tools (some tm) =
      (AIGenerator.firstText (resps cfg.MAX_TOOL_ROUNDS),
       scriptTrace g (AIGenerator.build_system_content hist) tools toolOut resps 0
           [⟨"user", MsgContent.text query⟩] cfg.MAX_TOOL_ROUNDS ++
         [Event.llmCall (AIGenerator.apiParamsBase g
             (scriptMessages toolOut resps 0 [⟨"user", MsgContent.text query⟩]
               cfg.MAX_TOOL_ROUNDS)
             (AIGenerator.build_system_content hist))]) := by
  have h0 : ∀ i, i < cfg.MAX_TOOL_ROUNDS → (resps (0 + i)).stop_reason = "tool_use" := by
    intro i hi
    simpa using htool i hi
  obtain ⟨k, hk⟩ : ∃ k, cfg.MAX_TOOL_ROUNDS = k + 1 :=
    ⟨cfg.MAX_TOOL_ROUNDS - 1, by omega⟩
  simp only [AIGenerator.generate_response]
  rw [runRounds_script g (AIGenerator.build_system_content hist) tools tm toolOut resps
    cfg.MAX_TOOL_ROUNDS (fun i p _ => hclient i p) hmgr cfg.MAX_TOOL_ROUNDS 0
    [⟨"user", MsgContent.text query⟩] none (by omega) h0]
  rw [hk]
  have h : (resps k).stop_reason = "tool_use" := htool k (by omega)
  simp [lastScriptResp, h, hclient]

theorem generate_response_stop (cfg : Config) (g : AIGenerator) (query : String)
    (hist : Option String) (tools : Option (List ToolSchema)) (tm : ToolManager)
    (toolOut : String → ToolInput → String) (resps : Nat → Response) (t : Nat)
    (hclient : ∀ i p, g.client i p = .ok (resps i))
    (hmgr : ∀ n inp, tm.execute_tool n inp = .ok (toolOut n inp))
    (ht : t < cfg.MAX_TOOL_ROUNDS)
    (htool : ∀ i, i < t → (resps i).stop_reason = "tool_use")
    (hstop : (resps t).stop_reason ≠ "tool_use") :
    AIGenerator.generate_response cfg g query hist tools (some tm) =
      (AIGenerator.firstText (resps t),
       scriptTrace g (AIGenerator.build_system_content hist) tools toolOut resps 0
           [⟨"user", MsgContent.text query⟩] t ++
         [Event.llmCall (AIGenerator.apiParamsWithTools g
             (scriptMessages toolOut resps 0 [⟨"user", MsgContent.text query⟩] t)
             (AIGenerator.build_system_content hist) tools)]) := by
  have h0 : ∀ i, i < t → (resps (0 + i)).stop_reason = "tool_use" := by
    intro i hi
    simpa using htool i hi
  have h1 : (resps (0 + t)).stop_reason ≠ "tool_use" := by simpa using hstop
  simp only [AIGenerator.generate_response]
  rw [runRounds_stop g (AIGenerator.build_system_content hist) tools tm toolOut resps
    cfg.MAX_TOOL_ROUNDS (fun i p _ => hclient i p) hmgr t cfg.MAX_TOOL_ROUNDS 0
    [⟨"user", MsgContent.text query⟩] none ht (by omega) h0 h1]
  simp

theorem runRounds_head (g : AIGenerator) (sys : String) (tools : Option (List ToolSchema))
    (tm : Option ToolManager) (fuel : Nat) (messages : List Message) (c : Nat)
    (r0 : Option Response) :
    ∃ rest, (AIGenerator.runRounds g sys tools tm (fuel + 1) messages c r0).2 =
      Event.llmCall (AIGenerator.apiParamsWithTools g messages sys tools) :: rest := by
  simp only [AIGenerator.runRounds]
  cases hcl : g.client c (AIGenerator.apiParamsWithTools g messages sys tools) with
  | error e => exact ⟨[], rfl⟩
  | ok r =>
    cases hsr : (r.stop_reason == "tool_use") with
    | false => simp [hsr]
    | true =>
      simp only [hsr, if_true]
      cases tm with
      | none => exact ⟨[], rfl⟩
      | some tm' =>
        rcases hex : AIGenerator.execute_tools tm' r.content with ⟨res, evsT⟩
        cases res with
        | error e => simp [hex]
        | ok rs => simp [hex]

theorem scriptMessages_succ_last (toolOut : String → ToolInput → String)
    (resps : Nat → Response) :
    ∀ (t c : Nat) (m : List Message),
    scriptMessages toolOut resps c m (t + 1) =
      stepMessages toolOut (resps (c + t)) (scriptMessages toolOut resps c m t) := by
  intro t
  induction t with
  | zero => intro c m; simp [scriptMessages]
  | succ s ih =>
    intro c m
    have hc : c + (s + 1) = (c + 1) + s := by omega
    calc scriptMessages toolOut resps c m (s + 1 + 1)
        = scriptMessages toolOut resps (c + 1) (stepMessages toolOut (resps c) m) (s + 1) := by
          simp [scriptMessages]
      _ = stepMessages toolOut (resps ((c + 1) + s))
            (scriptMessages toolOut resps (c + 1) (stepMessages toolOut (resps c) m) s) :=
          ih (c + 1) (stepMessages toolOut (resps c) m)
      _ = stepMessages toolOut (resps (c + (s + 1)))
            (scriptMessages toolOut resps c m (s + 1)) := by
          rw [hc]
          simp [scriptMessages]

theorem scriptTrace_succ_last (g : AIGenerator) (sys : String)
    (tools : Option (List ToolSchema)) (toolOut : String → ToolInput → String)
    (resps : Nat → Response) :
    ∀ (t c : Nat) (m : List Message),
    scriptTrace g sys tools toolOut resps c m (t + 1) =
      scriptTrace g sys tools toolOut resps c m t ++
        (Event.llmCall (AIGenerator.apiParamsWithTools g
            (scriptMessages toolOut resps c m t) sys tools) ::
          dispatchEvents toolOut (resps (c + t)).content) := by
  intro t
  induction t with
  | zero => intro c m; simp [scriptTrace, scriptMessages]
  | succ s ih =>
    intro c m
    have hc : c + (s + 1) = (c + 1) + s := by omega
    calc scriptTrace g sys tools toolOut resps c m (s + 1 + 1)
        = Event.llmCall (AIGenerator.apiParamsWithTools g m sys tools) ::
            dispatchEvents toolOut (resps c).content ++
              scriptTrace g sys tools toolOut resps (c + 1)
                (stepMessages toolOut (resps c) m) (s + 1) := by
          simp [scriptTrace]
      _ = _ := by
          rw [ih (c + 1) (stepMessages toolOut (resps c) m)]
          rw [hc]
          simp [scriptTrace, scriptMessages, List.append_assoc]

theorem generate_response_trace_ext (cfg : Config) (g : AIGenerator) (query : String)
    (hist : Option String) (tools : Option (List ToolSchema)) (tm : Option ToolManager) :
    ∃ extra, (AIGenerator.generate_response cfg g query hist tools tm).2 =
      (AIGenerator.runRounds g (AIGenerator.build_system_content hist) tools tm
        cfg.MAX_TOOL_ROUNDS [⟨"user", MsgContent.text query⟩] 0 none).2 ++ extra := by
  simp only [AIGenerator.generate_response]
  rcases hrun : AIGenerator.runRounds g (AIGenerator.build_system_content hist) tools tm
      cfg.MAX_TOOL_ROUNDS [⟨"user", MsgContent.text query⟩] 0 none with ⟨ex, evs⟩
  cases ex with
  | returned r => exact ⟨[], by simp⟩
  | exhausted lastResp m ci =>
    cases lastResp with
    | none => exact ⟨[], by simp⟩
    | some resp =>
      cases hsr : (resp.stop_reason == "tool_use") with
      | false => exact ⟨[], by simp [hsr]⟩
      | true =>
        cases hcl : g.client ci (AIGenerator.apiParamsBase g m
            (AIGenerator.build_system_content hist)) with
        | error e =>
          exact ⟨[Event.llmCall (AIGenerator.apiParamsBase g m
            (AIGenerator.build_system_content hist))], by simp [hsr, hcl]⟩
        | ok fr =>
          exact ⟨[Event.llmCall (AIGenerator.apiParamsBase g m
            (AIGenerator.build_system_content hist))], by simp [hsr, hcl]⟩

/-- C2: within one `generate_response` call, the message log is seeded with
exactly one user message holding the literal query; each completed tool
round appends exactly one assistant message (raw content blocks) then one
user message (bundled tool results), append-only; hence the log seen by
call `j` has length `1 + 2j` and roles strictly alternate user, assistant,
user, ... This holds for every client, tool manager, history, tool list
and round budget. -/
theorem claim_C2_message_log (cfg : Config) (g : AIGenerator) (query : String)
    (hist : Option String) (tools : Option (List ToolSchema)) (tm : Option ToolManager) :
    chainCheck query (callParams cfg g query hist tools tm) = true := by
  have hch := runRounds_chain g (AIGenerator.build_system_content hist) tools tm
    cfg.MAX_TOOL_ROUNDS [⟨"user", MsgContent.text query⟩] 0 none
    (by simp [alternatesFrom]) (by simp)
  rcases hrun : AIGenerator.runRounds g (AIGenerator.build_system_content hist) tools tm
      cfg.MAX_TOOL_ROUNDS [⟨"user", MsgContent.text query⟩] 0 none with ⟨ex, evs⟩
  rw [hrun] at hch
  obtain ⟨⟨h1, h2, h3⟩, h4⟩ := hch
  simp only [List.length_singleton] at h3
  simp only [callParams, AIGenerator.generate_response]
  rw [hrun]
  cases ex with
  | returned r => simp [chainCheck, h1, h2, h3]
  | exhausted lastResp m ci =>
    cases lastResp with
    | none => simp [chainCheck, h1, h2, h3]
    | some resp =>
      cases hsr : (resp.stop_reason == "tool_use") with
      | false => simp [hsr, chainCheck, h1, h2, h3]
      | true =>
        obtain ⟨j1, j2, j3⟩ := h4 (some resp) m ci rfl
        simp only [List.length_singleton] at j3
        cases hcl : g.client ci (AIGenerator.apiParamsBase g m
            (AIGenerator.build_system_content hist)) with
        | error e =>
          simp [hsr, hcl, chainCheck, llmParams_append, llmParams_cons_llm, llmParams_nil,
            j1, j2, j3]
        | ok fr =>
          simp [hsr, hcl, chainCheck, llmParams_append, llmParams_cons_llm, llmParams_nil,
            j1, j2, j3]

/-- C1: if the LLM responses of all `MAX_TOOL_ROUNDS` loop rounds signal tool
use and a dispatcher is present, `generate_response` makes exactly one
additional LLM call whose parameters carry no `tools` and no `tool_choice`
entry, returns the text of that final response's first content block, makes
`MAX_TOOL_ROUNDS + 1` LLM calls in total, and performs no tool dispatch
after the final call (the final LLM call is the last event of the run). -/
theorem claim_C1_forced_final_call (cfg : Config) (g : AIGenerator) (query : String)
    (hist : Option String) (tools : Option (List ToolSchema)) (tm : ToolManager)
    (toolOut : String → ToolInput → String) (resps : Nat → Response)
    (b : ContentBlock) (bs : List ContentBlock)
    (hclient : ∀ i p, g.client i p = .ok (resps i))
    (hmgr : ∀ n inp, tm.execute_tool n inp = .ok (toolOut n inp))
    (hM : 1 ≤ cfg.MAX_TOOL_ROUNDS)
    (htool : ∀ i, i < cfg.MAX_TOOL_ROUNDS → (resps i).stop_reason = "tool_use")
    (hb : (resps cfg.MAX_TOOL_ROUNDS).content = b :: bs) :
    ∃ p : ApiParams,
      (AIGenerator.generate_response cfg g query hist tools (some tm)).1 = .ok b.text ∧
      (callParams cfg g query hist tools (some tm)).length = cfg.MAX_TOOL_ROUNDS + 1 ∧
      (AIGenerator.generate_response cfg g query hist tools (some tm)).2.getLast? =
        some (Event.llmCall p) ∧
      p.tools = none ∧ p.tool_choice = none ∧
      g.client cfg.MAX_TOOL_ROUNDS p = .ok (resps cfg.MAX_TOOL_ROUNDS) := by
  have hE := generate_response_exhaust cfg g query hist tools tm toolOut resps
    hclient hmgr hM htool
  refine ⟨AIGenerator.apiParamsBase g
      (scriptMessages toolOut resps 0 [⟨"user", MsgContent.text query⟩] cfg.MAX_TOOL_ROUNDS)
      (AIGenerator.build_system_content hist), ?_, ?_, ?_, rfl, rfl, hclient _ _⟩
  · rw [hE]
    simp [AIGenerator.firstText, hb]
  · simp [callParams, hE, llmParams_append, llmParams_scriptTrace, llmParams_cons_llm,
      llmParams_nil, scriptParams_length]
  · rw [hE]
    simp

/-- Witness for C1 at the concrete two-round script. -/
theorem claim_C1_forced_final_call_witness :
    ∃ p : ApiParams,
      (AIGenerator.generate_response wCfg wG "hello" none wTools (some wTM)).1 =
        .ok "final answer" ∧
      (callParams wCfg wG "hello" none wTools (some wTM)).length = wCfg.MAX_TOOL_ROUNDS + 1 ∧
      (AIGenerator.generate_response wCfg wG "hello" none wTools (some wTM)).2.getLast? =
        some (Event.llmCall p) ∧
      p.tools = none ∧ p.tool_choice = none ∧
      wG.client wCfg.MAX_TOOL_ROUNDS p = .ok (wResps wCfg.MAX_TOOL_ROUNDS) :=
  claim_C1_forced_final_call wCfg wG "hello" none wTools wTM wToolOut wResps
    ⟨"text", "final answer", "", ⟨[]⟩, ""⟩ []
    (fun _ _ => rfl) (fun _ _ => rfl) (by decide)
    (by intro i hi; have h2 : i < 2 := hi; interval_cases i <;> rfl) rfl

/-- C4: if the model returns final text at round `t` after `t` consecutive
tool-use rounds (`t < MAX_TOOL_ROUNDS`), exactly `t + 1` LLM calls are made
and the first text block of that response is returned; in particular for
`t = 0` there is exactly one LLM call and the dispatcher is never invoked
(the whole trace is that single call). -/
theorem claim_C4_call_counts (cfg : Config) (g : AIGenerator) (query : String)
    (hist : Option String) (tools : Option (List ToolSchema)) (tm : ToolManager)
    (toolOut : String → ToolInput → String) (resps : Nat → Response) (t : Nat)
    (b : ContentBlock) (bs : List ContentBlock)
    (hclient : ∀ i p, g.client i p = .ok (resps i))
    (hmgr : ∀ n inp, tm.execute_tool n inp = .ok (toolOut n inp))
    (ht : t < cfg.MAX_TOOL_ROUNDS)
    (htool : ∀ i, i < t → (resps i).stop_reason = "tool_use")
    (hstop : (resps t).stop_reason ≠ "tool_use")
    (hb : (resps t).content = b :: bs) :
    (AIGenerator.generate_response cfg g query hist tools (some tm)).1 = .ok b.text ∧
    (callParams cfg g query hist tools (some tm)).length = t + 1 ∧
    (t = 0 → (AIGenerator.generate_response cfg g query hist tools (some tm)).2 =
      [Event.llmCall (AIGenerator.apiParamsWithTools g [⟨"user", MsgContent.text query⟩]
        (AIGenerator.build_system_content hist) tools)]) := by
  have hS := generate_response_stop cfg g query hist tools tm toolOut resps t
    hclient hmgr ht htool hstop
  refine ⟨?_, ?_, ?_⟩
  · rw [hS]
    simp [AIGenerator.firstText, hb]
  · simp [callParams, hS, llmParams_append, llmParams_scriptTrace, llmParams_cons_llm,
      llmParams_nil, scriptParams_length]
  · intro h0
    subst h0
    rw [hS]
    simp [scriptTrace, scriptMessages]

/-- Witness for C4 at the concrete one-tool-round script (t = 1). -/
theorem claim_C4_call_counts_witness :
    (AIGenerator.generate_response wCfg wGStop "hello" none wTools (some wTM)).1 =
      .ok "final answer" ∧
    (callParams wCfg wGStop "hello" none wTools (some wTM)).length = 1 + 1 ∧
    (1 = 0 → (AIGenerator.generate_response wCfg wGStop "hello" none wTools (some wTM)).2 =
      [Event.llmCall (AIGenerator.apiParamsWithTools wGStop
        [⟨"user", MsgContent.text "hello"⟩]
        (AIGenerator.build_system_content none) wTools)]) :=
  claim_C4_call_counts wCfg wGStop "hello" none wTools wTM wToolOut wRespsStop 1
    ⟨"text", "final answer", "", ⟨[]⟩, ""⟩ []
    (fun _ _ => rfl) (fun _ _ => rfl) (by decide)
    (by intro i hi; have h2 : i < 1 := hi; interval_cases i; rfl) (by decide) rfl

theorem generate_response_exhaust_err (cfg : Config) (g : AIGenerator) (query : String)
    (hist : Option String) (tools : Option (List ToolSchema)) (tm : ToolManager)
    (toolOut : String → ToolInput → String) (resps : Nat → Response) (e : String)
    (hclient : ∀ i p, i < cfg.MAX_TOOL_ROUNDS → g.client i p = .ok (resps i))
    (hfinal : ∀ p, g.client cfg.MAX_TOOL_ROUNDS p = .error e)
    (hmgr : ∀ n inp, tm.execute_tool n inp = .ok (toolOut n inp))
    (hM : 1 ≤ cfg.MAX_TOOL_ROUNDS)
    (htool : ∀ i, i < cfg.MAX_TOOL_ROUNDS → (resps i).stop_reason = "tool_use") :
    (AIGenerator.generate_response cfg g query hist tools (some tm)).1 = .error e := by
  have h0 : ∀ i, i < cfg.MAX_TOOL_ROUNDS → (resps (0 + i)).stop_reason = "tool_use" := by
    intro i hi
    simpa using htool i hi
  obtain ⟨k, hk⟩ : ∃ k, cfg.MAX_TOOL_ROUNDS = k + 1 :=
    ⟨cfg.MAX_TOOL_ROUNDS - 1, by omega⟩
  simp only [AIGenerator.generate_response]
  rw [runRounds_script g (AIGenerator.build_system_content hist) tools tm toolOut resps
    cfg.MAX_TOOL_ROUNDS hclient hmgr cfg.MAX_TOOL_ROUNDS 0
    [⟨"user", MsgContent.text query⟩] none (by omega) h0]
  have hfinal2 : ∀ p, g.client (k + 1) p = .error e := by
    rw [← hk]
    exact hfinal
  rw [hk]
  have h : (resps k).stop_reason = "tool_use" := htool k (by omega)
  simp [lastScriptResp, h, hfinal2]

set_option maxRecDepth 10000 in
theorem system_prompt_no_label :
    containsText AIGenerator.SYSTEM_PROMPT ("Previous conversation:") = false := by
  decide

/-- C5: the system content equals `SYSTEM_PROMPT` exactly when
`conversation_history` is `None` or empty (and then contains no
`Previous conversation:` label), equals
`SYSTEM_PROMPT ++ "\n\nPrevious conversation:\n" ++ history` when the
history is non-empty, and this same string is passed as the `system`
parameter of every LLM call of the turn, the forced final call included. -/
theorem claim_C5_system_content (cfg : Config) (g : AIGenerator) (query : String)
    (hist : Option String) (tools : Option (List ToolSchema)) (tm : Option ToolManager) :
    (if historyTruthy hist then
        AIGenerator.build_system_content hist =
          AIGenerator.SYSTEM_PROMPT ++ "\n\nPrevious conversation:\n" ++ hist.getD ""
      else
        AIGenerator.build_system_content hist = AIGenerator.SYSTEM_PROMPT ∧
          containsText (AIGenerator.build_system_content hist)
            ("Previous conversation:") = false) ∧
    systemCheck (AIGenerator.build_system_content hist)
      (AIGenerator.generate_response cfg g query hist tools tm).2 = true := by
  constructor
  · cases hh : historyTruthy hist with
    | true => simp [hh, AIGenerator.build_system_content]
    | false =>
      simp only [hh, Bool.false_eq_true, if_false]
      exact ⟨by simp [AIGenerator.build_system_content, hh],
        by simp [AIGenerator.build_system_content, hh, system_prompt_no_label]⟩
  · exact generate_response_systemCheck cfg g query hist tools tm

/-- C6: if an LLM response signals tool use while no tool manager was
supplied, the run terminates immediately with exactly the sentinel string,
dispatching no tool, appending nothing further, and making no further LLM
call — stated both for the loop from an arbitrary state and for a full
`generate_response` run (where round 0 is the only reachable such round). -/
theorem claim_C6_missing_dispatcher (cfg : Config) (g : AIGenerator) (query : String)
    (hist : Option String) (tools : Option (List ToolSchema)) (sys : String)
    (fuel c : Nat) (messages : List Message) (r0 : Option Response) (r : Response) :
    ((∀ p, g.client c p = .ok r) → r.stop_reason = "tool_use" →
      AIGenerator.runRounds g sys tools none (fuel + 1) messages c r0 =
        (.returned (.ok ("Unable to process tool requests - tool manager not available")),
         [Event.llmCall (AIGenerator.apiParamsWithTools g messages sys tools)])) ∧
    ((∀ p, g.client 0 p = .ok r) → r.stop_reason = "tool_use" → 1 ≤ cfg.MAX_TOOL_ROUNDS →
      AIGenerator.generate_response cfg g query hist tools none =
        (.ok ("Unable to process tool requests - tool manager not available"),
         [Event.llmCall (AIGenerator.apiParamsWithTools g [⟨"user", MsgContent.text query⟩]
           (AIGenerator.build_system_content hist) tools)])) := by
  constructor
  · intro hcl hsr
    simp [AIGenerator.runRounds, hcl, hsr]
  · intro hcl hsr hM
    obtain ⟨k, hk⟩ : ∃ k, cfg.MAX_TOOL_ROUNDS = k + 1 :=
      ⟨cfg.MAX_TOOL_ROUNDS - 1, by omega⟩
    simp only [AIGenerator.generate_response, hk]
    simp [AIGenerator.runRounds, hcl, hsr]

/-- Witness for C6 at a concrete tool-use script with no dispatcher. -/
theorem claim_C6_missing_dispatcher_witness :
    AIGenerator.generate_response wCfg wG "hello" none wTools none =
      (.ok ("Unable to process tool requests - tool manager not available"),
       [Event.llmCall (AIGenerator.apiParamsWithTools wG [⟨"user", MsgContent.text "hello"⟩]
         (AIGenerator.build_system_content none) wTools)]) :=
  (claim_C6_missing_dispatcher wCfg wG "hello" none wTools "" 0 0 [] none
    wToolUseResp).2 (fun _ => rfl) rfl (by decide)

/-- C7: exceptions propagate unchanged. (1) an LLM-call failure at any loop
round propagates, the failing call being the last event; (2) so at
`generate_response` level for round 0; (3) an exception raised by a
dispatched tool propagates out of `_execute_tools`, and (4) out of the
round loop; (5) a failure of the forced final call propagates out of
`generate_response`. No path catches, retries or substitutes an answer. -/
theorem claim_C7_exception_propagation (cfg : Config) (g : AIGenerator) (query : String)
    (hist : Option String) (tools : Option (List ToolSchema)) (tm : ToolManager)
    (toolOut : String → ToolInput → String) (resps : Nat → Response)
    (sys e : String) (fuel c : Nat) (messages : List Message) (r0 : Option Response)
    (b : ContentBlock) (rest : List ContentBlock) (r : Response) :
    ((∀ p, g.client c p = .error e) →
      AIGenerator.runRounds g sys tools (some tm) (fuel + 1) messages c r0 =
        (.returned (.error e),
         [Event.llmCall (AIGenerator.apiParamsWithTools g messages sys tools)])) ∧
    (1 ≤ cfg.MAX_TOOL_ROUNDS → (∀ p, g.client 0 p = .error e) →
      (AIGenerator.generate_response cfg g query hist tools (some tm)).1 = .error e) ∧
    (b.type = "tool_use" → tm.execute_tool b.name b.input = .error e →
      AIGenerator.execute_tools tm (b :: rest) = (.error e, [])) ∧
    ((∀ p, g.client c p = .ok r) → r.stop_reason = "tool_use" →
      (AIGenerator.execute_tools tm r.content).1 = .error e →
      (AIGenerator.runRounds g sys tools (some tm) (fuel + 1) messages c r0).1 =
        .returned (.error e)) ∧
    ((∀ i p, i < cfg.MAX_TOOL_ROUNDS → g.client i p = .ok (resps i)) →
      (∀ p, g.client cfg.MAX_TOOL_ROUNDS p = .error e) →
      (∀ n inp, tm.execute_tool n inp = .ok (toolOut n inp)) →
      1 ≤ cfg.MAX_TOOL_ROUNDS →
      (∀ i, i < cfg.MAX_TOOL_ROUNDS → (resps i).stop_reason = "tool_use") →
      (AIGenerator.generate_response cfg g query hist tools (some tm)).1 = .error e) := by
  refine ⟨?_, ?_, ?_, ?_, ?_⟩
  · intro hcl
    simp [AIGenerator.runRounds, hcl]
  · intro hM hcl
    obtain ⟨k, hk⟩ : ∃ k, cfg.MAX_TOOL_ROUNDS = k + 1 :=
      ⟨cfg.MAX_TOOL_ROUNDS - 1, by omega⟩
    simp only [AIGenerator.generate_response, hk]
    simp [AIGenerator.runRounds, hcl]
  · intro hb hex
    simp [AIGenerator.execute_tools, hb, hex]
  · intro hcl hsr hex
    rcases hex2 : AIGenerator.execute_tools tm r.content with ⟨res, evsT⟩
    rw [hex2] at hex
    simp only at hex
    subst hex
    simp [AIGenerator.runRounds, hcl, hsr, hex2]
  · intro hclient hfinal hmgr hM htool
    exact generate_response_exhaust_err cfg g query hist tools tm toolOut resps e
      hclient hfinal hmgr hM htool

/-- Witness for C7: a failing client at round 0, a failing forced final
call, and a raising tool body, each at concrete inputs. -/
theorem claim_C7_exception_propagation_witness :
    (AIGenerator.generate_response wCfg wGErr "hello" none wTools (some wTM)).1 =
      .error ("network error") ∧
    (AIGenerator.generate_response wCfg wGFinalErr "hello" none wTools (some wTM)).1 =
      .error ("network error") ∧
    AIGenerator.execute_tools wTMErr [wBlock] = (.error ("tool crashed"), []) := by
  refine ⟨?_, ?_, ?_⟩
  · exact (claim_C7_exception_propagation wCfg wGErr "hello" none wTools wTM wToolOut
      wResps "" ("network error") 0 0 [] none wBlock [] wToolUseResp).2.1
      (by decide) (fun _ => rfl)
  · exact (claim_C7_exception_propagation wCfg wGFinalErr "hello" none wTools wTM wToolOut
      (fun _ => wToolUseResp) "" ("network error") 0 0 [] none wBlock [] wToolUseResp).2.2.2.2
      (fun i p hi => by have h2 : i < 2 := hi; simp [wGFinalErr, h2])
      (fun p => rfl) (fun _ _ => rfl) (by decide)
      (by intro i hi; have h2 : i < 2 := hi; interval_cases i <;> rfl)
  · exact (claim_C7_exception_propagation wCfg wGErr "hello" none wTools wTMErr wToolOut
      wResps "" ("tool crashed") 0 0 [] none wBlock [] wToolUseResp).2.2.1 rfl rfl

/-- C3: when response `j` signals tool use and a dispatcher is present,
`_execute_tools` dispatches exactly the `tool_use` blocks of that response,
once each, in response order (other block types are not dispatched),
producing one `tool_result` per request in the same order whose
`tool_use_id` equals the request's `id`; the appended user message bundles
exactly those results; and all those dispatches occur strictly between LLM
call `j` and LLM call `j + 1` in the trace. -/
theorem claim_C3_dispatch_order (cfg : Config) (g : AIGenerator) (query : String)
    (hist : Option String) (tools : Option (List ToolSchema)) (tm : ToolManager)
    (toolOut : String → ToolInput → String) (resps : Nat → Response) (j : Nat)
    (hclient : ∀ i p, g.client i p = .ok (resps i))
    (hmgr : ∀ n inp, tm.execute_tool n inp = .ok (toolOut n inp))
    (hj : j < cfg.MAX_TOOL_ROUNDS)
    (htool : ∀ i, i ≤ j → (resps i).stop_reason = "tool_use") :
    AIGenerator.execute_tools tm (resps j).content =
      (.ok (resultsFor toolOut (resps j).content),
       dispatchEvents toolOut (resps j).content) ∧
    (resultsFor toolOut (resps j).content).map ToolResult.tool_use_id =
      (toolUseBlocks (resps j).content).map ContentBlock.id ∧
    ∃ (pre post : List Event) (pj pj1 : ApiParams),
      (AIGenerator.generate_response cfg g query hist tools (some tm)).2 =
        pre ++ Event.llmCall pj ::
          (dispatchEvents toolOut (resps j).content ++ (Event.llmCall pj1 :: post)) ∧
      (llmParams pre).length = j ∧
      pj1.messages = pj.messages ++
        [⟨"assistant", MsgContent.blocks (resps j).content⟩,
         ⟨"user", MsgContent.results (resultsFor toolOut (resps j).content)⟩] := by
  refine ⟨execute_tools_eq tm toolOut hmgr (resps j).content, ?_, ?_⟩
  · simp [resultsFor, toolUseBlocks, List.map_map, Function.comp]
  · have h0 : ∀ i, i < j + 1 → (resps (0 + i)).stop_reason = "tool_use" := by
      intro i hi
      simpa using htool i (by omega)
    rcases Nat.lt_or_ge (j + 1) cfg.MAX_TOOL_ROUNDS with hcase | hcase
    · have hsplit := runRounds_split g (AIGenerator.build_system_content hist) tools tm
        toolOut resps (j + 1) (fun i p _ => hclient i p) hmgr (j + 1) cfg.MAX_TOOL_ROUNDS 0
        [⟨"user", MsgContent.text query⟩] none (by omega) (by omega) h0
      obtain ⟨extra, hext⟩ := generate_response_trace_ext cfg g query hist tools (some tm)
      obtain ⟨k, hk⟩ : ∃ k, cfg.MAX_TOOL_ROUNDS - (j + 1) = k + 1 :=
        ⟨cfg.MAX_TOOL_ROUNDS - (j + 1) - 1, by omega⟩
      obtain ⟨rest, hhead⟩ := runRounds_head g (AIGenerator.build_system_content hist) tools
        (some tm) k (scriptMessages toolOut resps 0 [⟨"user", MsgContent.text query⟩] (j + 1))
        (0 + (j + 1)) (lastScriptResp resps none 0 (j + 1))
      refine ⟨scriptTrace g (AIGenerator.build_system_content hist) tools toolOut resps 0
          [⟨"user", MsgContent.text query⟩] j,
        rest ++ extra,
        AIGenerator.apiParamsWithTools g
          (scriptMessages toolOut resps 0 [⟨"user", MsgContent.text query⟩] j)
          (AIGenerator.build_system_content hist) tools,
        AIGenerator.apiParamsWithTools g
          (scriptMessages toolOut resps 0 [⟨"user", MsgContent.text query⟩] (j + 1))
          (AIGenerator.build_system_content hist) tools, ?_, ?_, ?_⟩
      · rw [hext, hsplit]
        rw [hk] at hsplit ⊢
        rw [hhead]
        rw [scriptTrace_succ_last]
        simp [List.append_assoc]
      · simp [llmParams_scriptTrace, scriptParams_length]
      · rw [apiParamsWithTools_messages, apiParamsWithTools_messages,
          scriptMessages_succ_last]
        simp [stepMessages]
    · have hM : cfg.MAX_TOOL_ROUNDS = j + 1 := by omega
      have hE := generate_response_exhaust cfg g query hist tools tm toolOut resps
        hclient hmgr (by omega) (fun i hi => htool i (by omega))
      rw [hM] at hE
      refine ⟨scriptTrace g (AIGenerator.build_system_content hist) tools toolOut resps 0
          [⟨"user", MsgContent.text query⟩] j,
        [],
        AIGenerator.apiParamsWithTools g
          (scriptMessages toolOut resps 0 [⟨"user", MsgContent.text query⟩] j)
          (AIGenerator.build_system_content hist) tools,
        AIGenerator.apiParamsBase g
          (scriptMessages toolOut resps 0 [⟨"user", MsgContent.text query⟩] (j + 1))
          (AIGenerator.build_system_content hist), ?_, ?_, ?_⟩
      · rw [hE]
        rw [scriptTrace_succ_last]
        simp [List.append_assoc]
      · simp [llmParams_scriptTrace, scriptParams_length]
      · rw [apiParamsWithTools_messages, apiParamsBase_messages, scriptMessages_succ_last]
        simp [stepMessages]

/-- Witness for C3 at the concrete one-tool-round script, round 0. -/
theorem claim_C3_dispatch_order_witness :
    AIGenerator.execute_tools wTM (wRespsStop 0).content =
      (.ok (resultsFor wToolOut (wRespsStop 0).content),
       dispatchEvents wToolOut (wRespsStop 0).content) ∧
    (resultsFor wToolOut (wRespsStop 0).content).map ToolResult.tool_use_id =
      (toolUseBlocks (wRespsStop 0).content).map ContentBlock.id ∧
    ∃ (pre post : List Event) (pj pj1 : ApiParams),
      (AIGenerator.generate_response wCfg wGStop "hello" none wTools (some wTM)).2 =
        pre ++ Event.llmCall pj ::
          (dispatchEvents wToolOut (wRespsStop 0).content ++ (Event.llmCall pj1 :: post)) ∧
      (llmParams pre).length = 0 ∧
      pj1.messages = pj.messages ++
        [⟨"assistant", MsgContent.blocks (wRespsStop 0).content⟩,
         ⟨"user", MsgContent.results (resultsFor wToolOut (wRespsStop 0).content)⟩] :=
  claim_C3_dispatch_order wCfg wGStop "hello" none wTools wTM wToolOut wRespsStop 0
    (fun _ _ => rfl) (fun _ _ => rfl) (by decide)
    (by intro i hi; have h0 : i = 0 := by omega
        subst h0
        rfl)

/-- C8 counterexample: at a concrete input where the RAG query raises the
exception `boom`, the endpoint surfaces an HTTP 500 whose detail is that
very exception message — so the error response does contain the internal
exception's message text, contrary to the claim. -/
theorem claim_C8_counterexample :
    query_documents wFailRag ⟨"what is X", some ("s1")⟩ = .httpError 500 ("boom") ∧
    containsText ("boom") ("boom") = true := by
  constructor
  · rfl
  · decide

/-- C8 (amended): the query endpoint never returns a partially-formed
answer: on success it returns a complete answer with sources and session
id; when processing raises it surfaces an HTTP 500 error response whose
detail is exactly the raised exception's message string (internal detail
is included, not hidden). -/
theorem claim_C8_error_surface (rag : RAGSystem) (req : QueryRequest) :
    (∀ sid answer sources, resolvedSession rag req = .ok sid →
      rag.query req.query sid = .ok (answer, sources) →
      query_documents rag req = .ok ⟨answer, sources, sid⟩) ∧
    (∀ sid e, resolvedSession rag req = .ok sid →
      rag.query req.query sid = .error e →
      query_documents rag req = .httpError 500 e) ∧
    (∀ e, resolvedSession rag req = .error e →
      query_documents rag req = .httpError 500 e) := by
  refine ⟨?_, ?_, ?_⟩
  · intro sid answer sources hs hq
    simp [query_documents, hs, hq]
  · intro sid e hs hq
    simp [query_documents, hs, hq]
  · intro e hs
    simp [query_documents, hs]

/-- Witness for C8's amended statement: a succeeding and a failing run. -/
theorem claim_C8_error_surface_witness :
    query_documents wOkRag ⟨"q", none⟩ = .ok ⟨"the answer", ["src1"], "session_1"⟩ ∧
    query_documents wFailRag ⟨"q", some ("s1")⟩ = .httpError 500 ("boom") :=
  ⟨(claim_C8_error_surface wOkRag ⟨"q", none⟩).1 "session_1" "the answer" ["src1"] rfl rfl,
   (claim_C8_error_surface wFailRag ⟨"q", some ("s1")⟩).2.1 "s1" "boom" rfl rfl⟩

/-- C9: the session-clear endpoint always returns a success flag and a
human-readable message and never re-raises: a succeeding store clear yields
`success = true`, a raising store clear is caught and yields
`success = false` with an error message; and for the spec-modelled session
store (whose clear never raises, unknown ids included) every id — unknown
ones included — clears with `success = true`. -/
theorem claim_C9_session_clear (rag : RAGSystem) (req : SessionClearRequest) :
    ((∃ u, rag.session_manager.clear_session req.session_id = .ok u) →
      clear_session rag req =
        ⟨true, "Session " ++ req.session_id ++ " cleared successfully"⟩) ∧
    (∀ e, rag.session_manager.clear_session req.session_id = .error e →
      clear_session rag req = ⟨false, "Error clearing session: " ++ e⟩) ∧
    (∀ sessions, clear_session ⟨specSessionManager sessions, rag.query⟩ req =
      ⟨true, "Session " ++ req.session_id ++ " cleared successfully"⟩) := by
  refine ⟨?_, ?_, ?_⟩
  · intro ⟨u, hu⟩
    simp [clear_session, hu]
  · intro e he
    simp [clear_session, he]
  · intro sessions
    rfl

/-- Witness for C9: clearing an unknown id on the spec-modelled store
succeeds; a raising store is caught and reported as failure. -/
theorem claim_C9_session_clear_witness :
    clear_session ⟨specSessionManager ["session_1"], wOkRag.query⟩
        ⟨"nonexistent-session-id"⟩ =
      ⟨true, "Session nonexistent-session-id cleared successfully"⟩ ∧
    clear_session wFailClearRag ⟨"session_1"⟩ =
      ⟨false, "Error clearing session: db down"⟩ :=
  ⟨(claim_C9_session_clear wOkRag ⟨"nonexistent-session-id"⟩).2.2 ["session_1"],
   (claim_C9_session_clear wFailClearRag ⟨"session_1"⟩).2.1 "db down" rfl⟩

/-- C10: a request whose `session_id` is the empty string is treated like an
absent one: a fresh session id is created and used for the query, the
successful response carries that fresh id, the behaviour is identical to
`session_id = None`, and whenever the generated id is non-empty the
returned `session_id` is non-empty. -/
theorem claim_C10_empty_session_id (rag : RAGSystem) (query fresh answer : String)
    (sources : List String)
    (hcreate : rag.session_manager.create_session = .ok fresh)
    (hquery : rag.query query fresh = .ok (answer, sources)) :
    query_documents rag ⟨query, some ""⟩ = .ok ⟨answer, sources, fresh⟩ ∧
    query_documents rag ⟨query, some ""⟩ = query_documents rag ⟨query, none⟩ ∧
    (fresh ≠ "" → ∀ resp, query_documents rag ⟨query, some ""⟩ = .ok resp →
      resp.session_id ≠ "") := by
  have h1 : query_documents rag ⟨query, some ""⟩ = .ok ⟨answer, sources, fresh⟩ := by
    simp [query_documents, resolvedSession, sessionIdTruthy, hcreate, hquery]
  refine ⟨h1, ?_, ?_⟩
  · rw [h1]
    simp [query_documents, resolvedSession, sessionIdTruthy, hcreate, hquery]
  · intro hne resp hresp
    rw [h1] at hresp
    cases hresp
    simpa using hne

/-- Witness for C10 at a concrete RAG system generating `session_1`. -/
theorem claim_C10_empty_session_id_witness :
    query_documents wOkRag ⟨"q", some ""⟩ = .ok ⟨"the answer", ["src1"], "session_1"⟩ ∧
    query_documents wOkRag ⟨"q", some ""⟩ = query_documents wOkRag ⟨"q", none⟩ ∧
    ("session_1" ≠ "" → ∀ resp, query_documents wOkRag ⟨"q", some ""⟩ = .ok resp →
      resp.session_id ≠ "") :=
  claim_C10_empty_session_id wOkRag "q" "session_1" "the answer" ["src1"] rfl rfl

end RagChatbot
